import Mathlib

/-!
Shallow embedding of the PyXtal random-crystal generators
(src/pyxtal/crystal.py and src/pyxtal/molecular_crystal.py).

Conventions used throughout:
* Python integers are modelled as ℤ, Python floats that only ever hold
  exact decimal constants and are compared or averaged are modelled as ℚ.
* External collaborators (symmetry provider, lattice point sampler,
  WP_merge, tolerance checks, molecule orientation objects) are modelled
  as oracle functions or oracle streams supplied as parameters: the code
  under verification only inspects their results, never their internals.
* Mutable object state is modelled by explicit state passing; an object
  mutated in place is modelled by returning its updated value.
-/

namespace PyXtal

/-- A Wyckoff position (orbit) as the compatibility analyzer sees it:
its multiplicity (the Python len(wp)) and whether the representative
operator has a nonzero rotational part, i.e. whether the orbit has
continuous degrees of freedom (crystal.py line 358: free iff not
allclose(wp[0].rotation_matrix, 0)). -/
structure WP where
  mult : ℤ
  free : Bool
deriving DecidableEq, Repr

/-- One entry of the reduced orbit lists built by check_compatible:
the parallel Python lists l_mult, l_maxn, l_free, indices
(crystal.py lines 349-381, molecular_crystal.py lines 494-527). -/
structure Entry where
  mult : ℤ
  maxn : ℤ
  free : Bool
  idx : ℕ
deriving DecidableEq, Repr

/-- First pass of random_crystal check_compatible (crystal.py lines
354-361): for every Wyckoff position of the group record multiplicity,
maxn0 = numIon // len(wp) (Python floor division), the freedom flag and
the running index. -/
def wpLists0 (g : List WP) (numIon : ℤ) : List Entry :=
  g.enum.map (fun iw => ⟨iw.2.mult, Int.fdiv numIon iw.2.mult, iw.2.free, iw.1⟩)

/-- First pass of molecular_crystal check_compatible (molecular_crystal.py
lines 499-509): identical to the atomic pass except that a Wyckoff
position is skipped when the molecule has no valid orientation on it.
The per-position usability ori.getD i false abstracts the Python lookup
len(valid_orientations[i_mol][j][k]) > 0 with (j,k) = jk_from_i(i_wp). -/
def wpLists0Mol (g : List WP) (ori : List Bool) (numIon : ℤ) : List Entry :=
  (g.enum.filter (fun iw => ori.getD iw.1 false)).map
    (fun iw => ⟨iw.2.mult, Int.fdiv numIon iw.2.mult, iw.2.free, iw.1⟩)

/-- One entry of the reduction pass of random_crystal check_compatible
(crystal.py lines 367-381): a free orbit is deduplicated by multiplicity
value against all multiplicities accumulated so far; a non-free orbit
already in used_indices is dropped; a surviving non-free orbit gets the
cap 1 when mult <= numIon and 0 when mult > numIon. -/
def reduceStepAtomic (numIon : ℤ) (used : List ℕ) (acc : List Entry)
    (e : Entry) : List Entry :=
  if e.free then
    if e.mult ∈ acc.map Entry.mult then acc else acc ++ [e]
  else
    if e.idx ∈ used then acc
    else acc ++ [{ e with maxn := if e.mult ≤ numIon then 1 else 0 }]

/-- Reduction pass of random_crystal check_compatible (crystal.py lines
362-381). -/
def reduceAtomic (numIon : ℤ) (used : List ℕ) (l0 : List Entry) : List Entry :=
  l0.foldl (reduceStepAtomic numIon used) []

/-- One entry of the reduction pass of molecular_crystal
check_compatible (molecular_crystal.py lines 515-527): as the atomic
step, except that every surviving non-free orbit gets the cap 1
unconditionally (the source appends l_maxn.append(1) with no comparison
of mult against numIon). -/
def reduceStepMol (used : List ℕ) (acc : List Entry) (e : Entry) : List Entry :=
  if e.free then
    if e.mult ∈ acc.map Entry.mult then acc else acc ++ [e]
  else
    if e.idx ∈ used then acc
    else acc ++ [{ e with maxn := 1 }]

/-- Reduction pass of molecular_crystal check_compatible
(molecular_crystal.py lines 510-527). -/
def reduceMol (used : List ℕ) (l0 : List Entry) : List Entry :=
  l0.foldl (reduceStepMol used) []

/-- Reduced orbit list of random_crystal check_compatible for one species. -/
def buildListsAtomic (g : List WP) (numIon : ℤ) (used : List ℕ) : List Entry :=
  reduceAtomic numIon used (wpLists0 g numIon)

/-- Reduced orbit list of molecular_crystal check_compatible for one
molecule type. -/
def buildListsMol (g : List WP) (ori : List Bool) (numIon : ℤ) (used : List ℕ) :
    List Entry :=
  reduceMol used (wpLists0Mol g ori numIon)

/-- The np.dot(n, l_mult) of the combination sweep: dot product of two
equally long integer lists. -/
def dotZ (n m : List ℤ) : ℤ :=
  ((n.zip m).map (fun p => p.1 * p.2)).sum

/-- The inner backwards loop of the combination sweep (crystal.py lines
427-434, molecular_crystal.py lines 575-582): with n[p] already zeroed,
move p left while p > 0 and p > p2, decrement the first nonzero entry
found, and bump p2 when that entry reaches 0 at position p2.
The recursion is on p itself, which strictly decreases. -/
def backloop : List ℤ → ℕ → ℕ → List ℤ × ℕ × ℕ
  | n, 0, p2 => (n, 0, p2)
  | n, q + 1, p2 =>
    if p2 < q + 1 then
      let v := n.getD q 0
      if v ≠ 0 then
        (n.set q (v - 1), q, if v - 1 = 0 ∧ q = p2 then q + 1 else p2)
      else backloop n q p2
    else (n, q + 1, p2)

/-- One-to-one embedding of the greedy-forward/backtrack-backward pointer
sweep shared by crystal.py lines 397-434 and molecular_crystal.py lines
544-582, with explicit fuel for the Python while True loop.
Result: none = fuel exhausted; some none = the Python return False, False;
some (some n) = the loop broke with a combination n summing to numIon.
The atomic source guards the backwards trigger with elif p == len - 1
where the molecular source uses a bare else; the two agree because the
pointer never moves past the end of the list. -/
def sweep (lm lx : List ℤ) (numIon : ℤ) : ℕ → List ℤ → ℕ → ℕ →
    Option (Option (List ℤ))
  | 0, _, _, _ => none
  | fuel + 1, n, p, p2 =>
    let num := dotZ n lm
    if num = numIon then some (some n)
    else if n = List.replicate lm.length (0 : ℤ) ∧ lm.length - 1 ≤ p then some none
    else
      let fwd := num < numIon
      let canFwd := p < lm.length - 1
      let n1 := if fwd ∧ canFwd then
          n.set (p + 1)
            (min (Int.fdiv (numIon - num) (lm.getD (p + 1) 0)) (lx.getD (p + 1) 0))
        else n
      let p1 := if fwd ∧ canFwd then p + 1 else p
      let doback := fwd ∧ ¬canFwd
      if numIon < num ∨ doback then
        let n2 := n1.set p1 0
        let r := backloop n2 p1 p2
        sweep lm lx numIon fuel r.1 r.2.1 r.2.2
      else sweep lm lx numIon fuel n1 p1 p2

/-- Success bookkeeping of random_crystal check_compatible (crystal.py
lines 402-408): report whether some nonzero multiplier sits on a free
orbit, and append the index of every nonzero non-free orbit to
used_indices. -/
def recordComb (n : List ℤ) (es : List Entry) (used : List ℕ) : Bool × List ℕ :=
  ((n.zip es).any (fun ve => decide (0 < ve.1) && ve.2.free),
   used ++ ((n.zip es).filter
     (fun ve => decide (0 < ve.1) && !ve.2.free)).map (fun ve => ve.2.idx))

/-- Success bookkeeping of molecular_crystal check_compatible
(molecular_crystal.py lines 549-555): the freedom flag is computed the
same way, but the branch for a nonzero non-free orbit appends its index
to the per-species local list named indices, not to used_indices, so the
used set that is threaded across molecule types comes back unchanged. -/
def recordCombMol (n : List ℤ) (es : List Entry) (used : List ℕ) :
    Bool × List ℕ :=
  ((n.zip es).any (fun ve => decide (0 < ve.1) && ve.2.free), used)

/-- One species of random_crystal check_compatible: build the reduced
lists, point p at the first orbit with a nonzero cap and max it out
(crystal.py lines 383-396; when no such orbit exists n = n0 and the
source returns False, False), run the sweep, and on success record the
combination. Result: none = fuel exhausted; some none = infeasible;
some (some (hf, used2)) = feasible. -/
def speciesStepAtomic (g : List WP) (numIon : ℤ) (used : List ℕ) (fuel : ℕ) :
    Option (Option (Bool × List ℕ)) :=
  let es := buildListsAtomic g numIon used
  let lm := es.map Entry.mult
  let lx := es.map Entry.maxn
  match lx.findIdx? (fun v => v != 0) with
  | none => some none
  | some i =>
    let n := (List.replicate lm.length (0 : ℤ)).set i (lx.getD i 0)
    match sweep lm lx numIon fuel n i i with
    | none => none
    | some none => some none
    | some (some nf) => some (some (recordComb nf es used))

/-- One molecule type of molecular_crystal check_compatible
(molecular_crystal.py lines 528-555): as the atomic step but on the
orientation-filtered lists and with the molecular success bookkeeping. -/
def speciesStepMol (g : List WP) (ori : List Bool) (numIon : ℤ) (used : List ℕ)
    (fuel : ℕ) : Option (Option (Bool × List ℕ)) :=
  let es := buildListsMol g ori numIon used
  let lm := es.map Entry.mult
  let lx := es.map Entry.maxn
  match lx.findIdx? (fun v => v != 0) with
  | none => some none
  | some i =>
    let n := (List.replicate lm.length (0 : ℤ)).set i (lx.getD i 0)
    match sweep lm lx numIon fuel n i i with
    | none => none
    | some none => some none
    | some (some nf) => some (some (recordCombMol nf es used))

/-- Species loop of random_crystal check_compatible (crystal.py lines
344-440): threads has_freedom and used_indices over the species in order;
any infeasible species aborts with (False, False), and full success
returns (True, has_freedom). -/
def ccAtomGo (g : List WP) (fuel : ℕ) :
    List ℤ → Bool → List ℕ → Option (Bool × Bool)
  | [], hf, _ => some (true, hf)
  | c :: cs, hf, used =>
    match speciesStepAtomic g c used fuel with
    | none => none
    | some none => some (false, false)
    | some (some r) => ccAtomGo g fuel cs (hf || r.1) r.2

/-- random_crystal check_compatible over the whole composition. -/
def checkCompatibleAtomic (g : List WP) (counts : List ℤ) (fuel : ℕ) :
    Option (Bool × Bool) :=
  ccAtomGo g fuel counts false []

/-- Molecule loop of molecular_crystal check_compatible
(molecular_crystal.py lines 488-588): each molecule type carries its own
orientation-usability row. -/
def ccMolGo (g : List WP) (fuel : ℕ) :
    List (ℤ × List Bool) → Bool → List ℕ → Option (Bool × Bool)
  | [], hf, _ => some (true, hf)
  | c :: cs, hf, used =>
    match speciesStepMol g c.2 c.1 used fuel with
    | none => none
    | some none => some (false, false)
    | some (some r) => ccMolGo g fuel cs (hf || r.1) r.2

/-- molecular_crystal check_compatible over the whole composition. -/
def checkCompatibleMol (g : List WP) (counts : List ℤ) (oris : List (List Bool))
    (fuel : ℕ) : Option (Bool × Bool) :=
  ccMolGo g fuel (counts.zip oris) false []

/-- A pre-assigned Wyckoff site label such as 4a: the leading integer
(the Python int(s[:-1])) and the trailing letter. -/
structure SiteLabel where
  num : ℤ
  letter : Char
deriving DecidableEq, Repr

/-- The total count encoded by a pre-assigned site list
(crystal.py lines 443-445, molecular_crystal.py lines 594-596). -/
def consistencySum (site : List SiteLabel) : ℤ :=
  (site.map SiteLabel.num).sum

/-- check_consistency as a predicate (crystal.py lines 442-452,
molecular_crystal.py lines 590-603): true when the requested count
equals the encoded total; the source raises ValueError otherwise. -/
def checkConsistency (site : List SiteLabel) (numIon : ℤ) : Bool :=
  numIon == consistencySum site

/-- Whether set_sites raises (crystal.py lines 131-145,
molecular_crystal.py lines 183-197): with a site list supplied, the
types are walked in order and check_consistency raises at the first type
whose pre-assigned list total mismatches its requested count. -/
def setSitesFails (counts : List ℤ)
    (sites : Option (List (Option (List SiteLabel)))) : Bool :=
  match sites with
  | none => false
  | some l =>
    (counts.zip l).any (fun cs =>
      match cs.2 with
      | none => false
      | some lab => !checkConsistency lab cs.1)

/-- Outcome of init_common, up to and including the compatibility check.
countError models the atomic printx + return False on a bad count
(crystal.py lines 83-86); consistencyError the ValueError of
check_consistency; compatError the CompatibilityError; fuelOut is an
artifact of the fuel given to the embedded while True sweep; ok carries
self.degrees and stands for continuing into set_volume, set_lattice and
set_crystal. -/
inductive InitResult where
  | countError
  | consistencyError
  | compatError
  | fuelOut
  | ok (degrees : Bool)
deriving DecidableEq, Repr

/-- The count validation of random_crystal init_common (crystal.py lines
83-86): a composition entry fails when int(num) != num (the entry is not
an integer, i.e. its denominator is not 1) or num < 1. -/
def countCheckFails (numIons : List ℚ) : Bool :=
  numIons.any (fun num => num.den != 1 || decide (num < 1))

/-- random_crystal init_common (crystal.py lines 76-129) as a pipeline:
count validation, then set_sites with its consistency check, then
check_compatible; conventional = True is modelled (the cellsize
multiplier is 1). -/
def atomicInit (numIons : List ℚ)
    (sites : Option (List (Option (List SiteLabel)))) (g : List WP)
    (fuel : ℕ) : InitResult :=
  if countCheckFails numIons then .countError
  else
    let counts : List ℤ := numIons.map Rat.num
    if setSitesFails counts sites then .consistencyError
    else
      match checkCompatibleAtomic g counts fuel with
      | none => .fuelOut
      | some (false, _) => .compatError
      | some (true, d) => .ok d

/-- molecular_crystal init_common (molecular_crystal.py lines 101-160) as
a pipeline: there is no count validation in the molecular source, so the
pipeline starts at set_sites and goes straight on to check_compatible. -/
def molecularInit (numMols : List ℤ)
    (sites : Option (List (Option (List SiteLabel)))) (g : List WP)
    (oris : List (List Bool)) (fuel : ℕ) : InitResult :=
  if setSitesFails numMols sites then .consistencyError
  else
    match checkCompatibleMol g numMols oris fuel with
    | none => .fuelOut
    | some (false, _) => .compatError
    | some (true, d) => .ok d

/-- A fractional coordinate in the cell. -/
structure Pt where
  x : ℚ
  y : ℚ
  z : ℚ
deriving DecidableEq, Repr

/-- The pure planar snap condition (crystal.py line 302,
molecular_crystal.py line 408): dim == 2 and thickness is not None and
thickness < 0.1. -/
def planarCond (dim : ℕ) (thickness : Option ℚ) : Bool :=
  dim == 2 &&
    (match thickness with
     | some t => decide (t < 1 / 10)
     | none => false)

/-- An accepted atomic placement: the atom_site(wp, pt, specie) object
(crystal.py line 311); the species symbol is abstracted to a tag. -/
structure ASite where
  wp : WP
  pt : Pt
  specie : ℕ
deriving DecidableEq, Repr

/-- One cycle of randomness for the atomic placement search: the result
of choose_wyckoff (none models the Python False) and the random
fractional point from lattice.generate_point. -/
structure ATrial where
  wpc : Option WP
  pt : Pt
deriving Repr

/-- The sum of the orbit multiplicities of a list of atomic placements;
numIon_added in the source equals this sum of the accumulated list. -/
def sumMultA (l : List ASite) : ℤ :=
  (l.map (fun s => s.wp.mult)).sum

/-- random_crystal set_ion_wyckoffs (crystal.py lines 254-332).
Parameters: the planar flag, the request numIon, the merge oracle
standing for WP_merge (it always returns a point and possibly a merged
orbit; the tolerance and cell are fixed inside it), the pairwise distance
oracle chk standing for new_site.check_with_ws2(ws, cell, tol_matrix),
the species tag, the placements wyks of previously completed types, and
a trial stream indexed by the cycle counter.
State: remaining fuel (wyckoff_attempts minus cycles burnt), the
pre-assigned list (none when self.sites[specie] is None; reading
sites_list[0] on an exhausted list would raise IndexError in Python and
is unreachable under the check_consistency invariant, modelled by
head?), numIon_added, and the accumulated sites.  Every branch of the
Python loop body burns exactly one cycle, including the
pre-assignment-mismatch continue, which increments cycle itself.
The source assigns pt[-1] = 0.5 right after WP_merge, before testing wp
and the pre-assignment mismatch; neither test reads pt, and the snapped
point is dead in both rejecting branches, so the embedding computes the
snapped point where it is first used, in the candidate site. -/
def setIonWyckoffs (d2 : Bool) (numIon : ℤ) (merge : Pt → WP → Pt × Option WP)
    (chk : ASite → ASite → Bool) (specie : ℕ) (wyks : List ASite)
    (trials : ℕ → ATrial) :
    ℕ → ℕ → Option (List SiteLabel) → ℤ → List ASite → Option (List ASite)
  | _, 0, _, _, _ => none
  | c, fuel + 1, sl, added, tmp =>
    match (trials c).wpc with
    | none => setIonWyckoffs d2 numIon merge chk specie wyks trials (c + 1) fuel sl added tmp
    | some w =>
      match merge (trials c).pt w with
      | (_, none) => setIonWyckoffs d2 numIon merge chk specie wyks trials (c + 1) fuel sl added tmp
      | (pt1, some w2) =>
        if (sl.bind List.head?).isSome ∧ w.mult ≠ w2.mult then
          setIonWyckoffs d2 numIon merge chk specie wyks trials (c + 1) fuel sl added tmp
        else
          let pt2 := if d2 then { pt1 with z := 1 / 2 } else pt1
          let ns : ASite := ⟨w2, pt2, specie⟩
          if (tmp ++ wyks).all (fun ws => chk ns ws) then
            let sl2 := sl.map List.tail
            let tmp2 := tmp ++ [ns]
            let added2 := added + w2.mult
            if added2 = numIon then some tmp2
            else setIonWyckoffs d2 numIon merge chk specie wyks trials (c + 1) fuel sl2 added2 tmp2
          else setIonWyckoffs d2 numIon merge chk specie wyks trials (c + 1) fuel sl added tmp

/-- An accepted molecular placement: the mol_site built by
set_orientation from the merged orbit, the (possibly z-snapped) point
and the final orientation angle. -/
structure MSite where
  wp : WP
  pt : Pt
  angle : ℚ
deriving DecidableEq, Repr

/-- One cycle of randomness for the molecular placement search: the
choose_wyckoff_molecular result, the random point, and the outcome of
set_orientation abstracted to the accepted angle (none = the refiner
returned None). -/
structure MTrial where
  wpc : Option WP
  pt : Pt
  ori : Option ℚ
deriving Repr

/-- The sum of orbit multiplicities of a list of molecular placements;
numMol_added += len(ms0.wp) accumulates exactly these. -/
def sumMultM (l : List MSite) : ℤ :=
  (l.map (fun s => s.wp.mult)).sum

/-- molecular_crystal set_mol_wyckoffs (molecular_crystal.py lines
357-429).  Same shape as the atomic search with two source-level
differences kept: the planar z-snap happens after the
pre-assignment-mismatch check instead of before it, and the candidate
site comes out of set_orientation (abstracted to the ori field of the
trial), which runs before the pairwise distance checks. -/
def setMolWyckoffs (d2 : Bool) (numMol : ℤ) (merge : Pt → WP → Pt × Option WP)
    (chk : MSite → MSite → Bool) (molWyks : List MSite)
    (trials : ℕ → MTrial) :
    ℕ → ℕ → Option (List SiteLabel) → ℤ → List MSite → Option (List MSite)
  | _, 0, _, _, _ => none
  | c, fuel + 1, sl, added, tmp =>
    match (trials c).wpc with
    | none => setMolWyckoffs d2 numMol merge chk molWyks trials (c + 1) fuel sl added tmp
    | some w =>
      match merge (trials c).pt w with
      | (_, none) => setMolWyckoffs d2 numMol merge chk molWyks trials (c + 1) fuel sl added tmp
      | (pt1, some w2) =>
        if (sl.bind List.head?).isSome ∧ w.mult ≠ w2.mult then
          setMolWyckoffs d2 numMol merge chk molWyks trials (c + 1) fuel sl added tmp
        else
          let pt2 := if d2 then { pt1 with z := 1 / 2 } else pt1
          match (trials c).ori with
          | none => setMolWyckoffs d2 numMol merge chk molWyks trials (c + 1) fuel sl added tmp
          | some ang =>
            let ms : MSite := ⟨w2, pt2, ang⟩
            if (tmp ++ molWyks).all (fun ws => chk ms ws) then
              let sl2 := sl.map List.tail
              let tmp2 := tmp ++ [ms]
              let added2 := added + w2.mult
              if added2 = numMol then some tmp2
              else setMolWyckoffs d2 numMol merge chk molWyks trials (c + 1) fuel sl2 added2 tmp2
            else setMolWyckoffs d2 numMol merge chk molWyks trials (c + 1) fuel sl added tmp

/-- Attempt budgets of random_crystal set_crystal (crystal.py lines
209-217): (lattice_attempts, coord_attempts) = (40, 10) with degrees of
freedom and (5, 5) without; lattice_attempts is forced to 1 afterwards
when the lattice does not allow a volume reset. -/
def atomicBudgets (degrees allowReset : Bool) : ℕ × ℕ :=
  let la := if degrees then 40 else 5
  let ca := if degrees then 10 else 5
  (if allowReset then la else 1, ca)

/-- Attempt budgets of molecular_crystal set_crystal
(molecular_crystal.py lines 307-317): (lattice_attempts, coord_attempts,
ori_attempts) = (40, 30, 5) with degrees of freedom and (20, 3, 1)
without; lattice_attempts is forced to 1 afterwards when the lattice
does not allow a volume reset. -/
def molecularBudgets (degrees allowReset : Bool) : ℕ × ℕ × ℕ :=
  let la := if degrees then 40 else 20
  let ca := if degrees then 30 else 3
  let oa := if degrees then 5 else 1
  (if allowReset then la else 1, ca, oa)

/-- The nested retry loop of set_crystal (crystal.py lines 219-233,
molecular_crystal.py lines 319-333): lattice trials cycle1 up to la,
coordinate trials cycle2 up to ca, stopping at the first success of the
set_coords oracle; the lattice matrix reset between lattice trials is an
external side effect with no bearing on the trial indices. -/
def setCrystalLoop (tryOnce : ℕ → ℕ → Bool) (la ca : ℕ) : Option (ℕ × ℕ) :=
  (List.range la).findSome? (fun c1 =>
    ((List.range ca).find? (fun c2 => tryOnce c1 c2)).map (fun c2 => (c1, c2)))

/-- The caller-visible state of a Lattice object: its volume, its PBC
triple and whether it permits a volume reset. -/
structure LatticeData where
  volume : ℚ
  pbc : List ℤ
  allowReset : Bool
deriving DecidableEq, Repr

/-- The crystal fields live at the set_lattice call: PBC, the volume
estimated by set_volume, the volume factor, the degrees flag from
check_compatible and the valid flag. -/
structure CrystalState where
  pbc : List ℤ
  volume : ℚ
  factor : ℚ
  degrees : Bool
  valid : Bool
deriving DecidableEq, Repr

/-- set_lattice with a caller-supplied lattice (crystal.py lines 164-175,
molecular_crystal.py lines 264-275): self.lattice is bound to the very
object the caller passed, self.volume is overwritten with
lattice.volume, and when the PBC triples differ the caller's object has
its PBC overwritten in place with the crystal's.  The aliasing
self.lattice = lattice is modelled by returning the single shared
lattice value next to the updated crystal state. -/
def setLatticeSupplied (c : CrystalState) (lat : LatticeData) :
    CrystalState × LatticeData :=
  let c2 := { c with volume := lat.volume }
  let lat2 := if lat.pbc ≠ c.pbc then { lat with pbc := c.pbc } else lat
  (c2, lat2)

/-- Bracket state of the bisection refiner in set_orientation
(molecular_crystal.py lines 447-478): the bracket ends and their
objective values, the objective value tested at the top of the loop
(fun, which starts as fun_hi), and the rotation angle the mutable
orientation object currently holds (the last angle passed to
change_orientation; the mol_site under test aliases that object). -/
structure BisState where
  lo : ℚ
  hi : ℚ
  flo : ℚ
  fhi : ℚ
  fc : ℚ
  cur : ℚ
deriving DecidableEq, Repr

/-- The bisection loop of set_orientation (molecular_crystal.py lines
468-478) with d the minimum-distance objective (fun_dist) and chk the
full distance check of the site at the orientation angle it currently
holds.  Each iteration first tests fun > 0.8 together with the distance
check and returns the current site on success; otherwise it evaluates
the objective at the bracket midpoint and moves the bracket end holding
the smaller objective value onto the midpoint. -/
def bisLoop (d : ℚ → ℚ) (chk : ℚ → Bool) : ℕ → BisState → Option ℚ
  | 0, _ => none
  | k + 1, s =>
    if decide (s.fc > 4 / 5) && chk s.cur then some s.cur
    else
      let angle := (s.lo + s.hi) / 2
      let f := d angle
      if s.flo > s.fhi then bisLoop d chk k ⟨s.lo, angle, s.flo, f, f, angle⟩
      else bisLoop d chk k ⟨angle, s.hi, f, s.fhi, f, angle⟩

/-- set_orientation (molecular_crystal.py lines 432-480) after the random
draw of a starting orientation: angle0 is the angle the flipped
orientation holds, natoms = len(pyxtal_mol.mol), oriDegrees =
ori.degrees, halfTurn stands for np.pi.  An initial pass of the distance
check accepts immediately; otherwise, with more than one atom and
rotational freedom, the bracket [angle0, angle0 + pi] is evaluated at
both ends and the bisection loop runs with budget ori_attempts; in every
remaining case the refiner returns None. -/
def setOrientation (natoms oriDegrees oriAttempts : ℕ) (halfTurn angle0 : ℚ)
    (d : ℚ → ℚ) (chk : ℚ → Bool) : Option ℚ :=
  if chk angle0 then some angle0
  else if 1 < natoms ∧ 0 < oriDegrees then
    let lo := angle0
    let hi := angle0 + halfTurn
    let flo := d lo
    let fhi := d hi
    bisLoop d chk oriAttempts ⟨lo, hi, flo, fhi, fhi, hi⟩
  else none

/-! Helper lemmas. -/

/-- Helper: a successful nested retry loop reports in-budget trial indices. -/
theorem setCrystalLoop_lt {tryOnce : ℕ → ℕ → Bool} {la ca c1 c2 : ℕ}
    (h : setCrystalLoop tryOnce la ca = some (c1, c2)) : c1 < la ∧ c2 < ca := by
  unfold setCrystalLoop at h
  obtain ⟨a, ha, hfa⟩ := List.exists_of_findSome?_eq_some h
  cases hfind : (List.range ca).find? (fun c2 => tryOnce a c2) with
  | none => rw [hfind] at hfa; simp at hfa
  | some b =>
    rw [hfind] at hfa
    simp only [Option.map_some'] at hfa
    obtain ⟨h1, h2⟩ := Prod.mk.injEq .. ▸ Option.some.injEq .. ▸ hfa
    subst h1; subst h2
    exact ⟨List.mem_range.mp ha,
      List.mem_range.mp (List.mem_of_find?_eq_some hfind)⟩

/-- Helper: the set_sites failure flag is the existence of a supplied
pre-assigned list whose encoded total differs from its requested count. -/
theorem setSitesFails_iff (counts : List ℤ) (l : List (Option (List SiteLabel))) :
    setSitesFails counts (some l) = true ↔
      ∃ p ∈ counts.zip l, ∃ lab, p.2 = some lab ∧ consistencySum lab ≠ p.1 := by
  unfold setSitesFails
  rw [List.any_eq_true]
  constructor
  · rintro ⟨p, hp, hq⟩
    refine ⟨p, hp, ?_⟩
    cases h2 : p.2 with
    | none => rw [h2] at hq; simp at hq
    | some lab =>
      rw [h2] at hq
      refine ⟨lab, rfl, fun hsum => ?_⟩
      simp only [checkConsistency, hsum] at hq
      simp at hq
  · rintro ⟨p, hp, lab, hlab, hne⟩
    refine ⟨p, hp, ?_⟩
    rw [hlab]
    simp only [checkConsistency]
    simpa using fun hsum => hne hsum.symm

/-- Helper: appending one site adds its orbit multiplicity to the total. -/
theorem sumMultA_append (l : List ASite) (s : ASite) :
    sumMultA (l ++ [s]) = sumMultA l + s.wp.mult := by
  simp [sumMultA]

/-- Helper: appending one molecular site adds its orbit multiplicity. -/
theorem sumMultM_append (l : List MSite) (s : MSite) :
    sumMultM (l ++ [s]) = sumMultM l + s.wp.mult := by
  simp [sumMultM]

/-- Helper: a pointwise property extends over appending one element. -/
theorem forall_mem_append_singleton {α : Type} {P : α → Prop} {l : List α} {a : α}
    (hl : ∀ s ∈ l, P s) (ha : P a) : ∀ s ∈ l ++ [a], P s := by
  intro s hs
  rcases List.mem_append.mp hs with h | h
  · exact hl s h
  · rcases List.mem_singleton.mp h with rfl
    exact ha

/-- Helper invariant: when numIon_added equals the multiplicity total of
the accumulated sites, a successful atomic placement search returns a
list whose multiplicities sum exactly to numIon. -/
theorem setIonWyckoffs_sum_inv (d2 : Bool) (numIon : ℤ)
    (merge : Pt → WP → Pt × Option WP) (chk : ASite → ASite → Bool)
    (sp : ℕ) (wyks : List ASite) (trials : ℕ → ATrial) :
    ∀ fuel c sl added tmp l,
      added = sumMultA tmp →
      setIonWyckoffs d2 numIon merge chk sp wyks trials c fuel sl added tmp = some l →
      sumMultA l = numIon := by
  intro fuel
  induction fuel with
  | zero => intro c sl added tmp l _ h; rw [setIonWyckoffs] at h; cases h
  | succ f ih =>
    intro c sl added tmp l hadd h
    rw [setIonWyckoffs] at h
    repeat' (first | split at h | simp only [] at h)
    any_goals exact ih _ _ _ _ _ hadd h
    any_goals exact ih _ _ _ _ _ (by rw [sumMultA_append, ← hadd]) h
    all_goals (cases h; rw [sumMultA_append, ← hadd]; assumption)

/-- Helper invariant: same multiplicity accounting for the molecular
placement search. -/
theorem setMolWyckoffs_sum_inv (d2 : Bool) (numMol : ℤ)
    (merge : Pt → WP → Pt × Option WP) (chk : MSite → MSite → Bool)
    (molWyks : List MSite) (trials : ℕ → MTrial) :
    ∀ fuel c sl added tmp l,
      added = sumMultM tmp →
      setMolWyckoffs d2 numMol merge chk molWyks trials c fuel sl added tmp = some l →
      sumMultM l = numMol := by
  intro fuel
  induction fuel with
  | zero => intro c sl added tmp l _ h; rw [setMolWyckoffs] at h; cases h
  | succ f ih =>
    intro c sl added tmp l hadd h
    rw [setMolWyckoffs] at h
    repeat' (first | split at h | simp only [] at h)
    any_goals exact ih _ _ _ _ _ hadd h
    any_goals exact ih _ _ _ _ _ (by rw [sumMultM_append, ← hadd]) h
    all_goals (cases h; rw [sumMultM_append, ← hadd]; assumption)

/-- Helper invariant: with the planar condition on, every site the
atomic search accumulates carries the snapped third coordinate 1/2. -/
theorem setIonWyckoffs_planar_inv (numIon : ℤ)
    (merge : Pt → WP → Pt × Option WP) (chk : ASite → ASite → Bool)
    (sp : ℕ) (wyks : List ASite) (trials : ℕ → ATrial) :
    ∀ fuel c sl added tmp l,
      (∀ s ∈ tmp, s.pt.z = 1 / 2) →
      setIonWyckoffs true numIon merge chk sp wyks trials c fuel sl added tmp = some l →
      ∀ s ∈ l, s.pt.z = 1 / 2 := by
  intro fuel
  induction fuel with
  | zero => intro c sl added tmp l _ h; rw [setIonWyckoffs] at h; cases h
  | succ f ih =>
    intro c sl added tmp l htmp h
    rw [setIonWyckoffs] at h
    repeat' (first | split at h | simp only [] at h)
    any_goals exact ih _ _ _ _ _ htmp h
    any_goals contradiction
    any_goals exact ih _ _ _ _ _ (forall_mem_append_singleton htmp rfl) h
    all_goals (cases h; exact forall_mem_append_singleton htmp rfl)

/-- Helper invariant: the same planar snap for the molecular search. -/
theorem setMolWyckoffs_planar_inv (numMol : ℤ)
    (merge : Pt → WP → Pt × Option WP) (chk : MSite → MSite → Bool)
    (molWyks : List MSite) (trials : ℕ → MTrial) :
    ∀ fuel c sl added tmp l,
      (∀ s ∈ tmp, s.pt.z = 1 / 2) →
      setMolWyckoffs true numMol merge chk molWyks trials c fuel sl added tmp = some l →
      ∀ s ∈ l, s.pt.z = 1 / 2 := by
  intro fuel
  induction fuel with
  | zero => intro c sl added tmp l _ h; rw [setMolWyckoffs] at h; cases h
  | succ f ih =>
    intro c sl added tmp l htmp h
    rw [setMolWyckoffs] at h
    repeat' (first | split at h | simp only [] at h)
    any_goals exact ih _ _ _ _ _ htmp h
    any_goals contradiction
    any_goals exact ih _ _ _ _ _ (forall_mem_append_singleton htmp rfl) h
    all_goals (cases h; exact forall_mem_append_singleton htmp rfl)

/-- Soundness predicate for entries of the atomic reduced lists: a free
entry keeps maxn = numIon // mult from the first pass, a non-free entry
carries the cap 1 or 0 by multiplicity and an index outside used. -/
def AtomEntryOK (numIon : ℤ) (used : List ℕ) (e : Entry) : Prop :=
  (e.free = true → e.maxn = Int.fdiv numIon e.mult) ∧
  (e.free = false → e.maxn = (if e.mult ≤ numIon then 1 else 0) ∧ e.idx ∉ used)

/-- Soundness predicate for entries of the molecular reduced lists: as
the atomic one except that a surviving non-free entry always has cap 1. -/
def MolEntryOK (numIon : ℤ) (used : List ℕ) (e : Entry) : Prop :=
  (e.free = true → e.maxn = Int.fdiv numIon e.mult) ∧
  (e.free = false → e.maxn = 1 ∧ e.idx ∉ used)

/-- Helper: every first-pass atomic entry records maxn = numIon // mult. -/
theorem wpLists0_maxn (g : List WP) (numIon : ℤ) :
    ∀ e ∈ wpLists0 g numIon, e.maxn = Int.fdiv numIon e.mult := by
  intro e he
  unfold wpLists0 at he
  obtain ⟨iw, _, rfl⟩ := List.mem_map.mp he
  rfl

/-- Helper: every first-pass molecular entry records maxn = numIon // mult. -/
theorem wpLists0Mol_maxn (g : List WP) (ori : List Bool) (numIon : ℤ) :
    ∀ e ∈ wpLists0Mol g ori numIon, e.maxn = Int.fdiv numIon e.mult := by
  intro e he
  unfold wpLists0Mol at he
  obtain ⟨iw, _, rfl⟩ := List.mem_map.mp he
  rfl

/-- Helper: one atomic reduction step preserves entry soundness. -/
theorem reduceStepAtomic_inv (numIon : ℤ) (used : List ℕ) (acc : List Entry)
    (x : Entry) (hacc : ∀ e ∈ acc, AtomEntryOK numIon used e)
    (hx : x.maxn = Int.fdiv numIon x.mult) :
    ∀ e ∈ reduceStepAtomic numIon used acc x, AtomEntryOK numIon used e := by
  intro e he
  unfold reduceStepAtomic at he
  split at he
  · rename_i hfree
    split at he
    · exact hacc e he
    · rcases List.mem_append.mp he with h | h
      · exact hacc e h
      · rcases List.mem_singleton.mp h with rfl
        exact ⟨fun _ => hx, fun hff => absurd hff (by simp [hfree])⟩
  · rename_i hfree
    split at he
    · exact hacc e he
    · rename_i hidx
      rcases List.mem_append.mp he with h | h
      · exact hacc e h
      · rcases List.mem_singleton.mp h with rfl
        exact ⟨fun htt => absurd htt (by simpa using hfree), fun _ => ⟨rfl, hidx⟩⟩

/-- Helper: one molecular reduction step preserves entry soundness. -/
theorem reduceStepMol_inv (numIon : ℤ) (used : List ℕ) (acc : List Entry)
    (x : Entry) (hacc : ∀ e ∈ acc, MolEntryOK numIon used e)
    (hx : x.maxn = Int.fdiv numIon x.mult) :
    ∀ e ∈ reduceStepMol used acc x, MolEntryOK numIon used e := by
  intro e he
  unfold reduceStepMol at he
  split at he
  · rename_i hfree
    split at he
    · exact hacc e he
    · rcases List.mem_append.mp he with h | h
      · exact hacc e h
      · rcases List.mem_singleton.mp h with rfl
        exact ⟨fun _ => hx, fun hff => absurd hff (by simp [hfree])⟩
  · rename_i hfree
    split at he
    · exact hacc e he
    · rename_i hidx
      rcases List.mem_append.mp he with h | h
      · exact hacc e h
      · rcases List.mem_singleton.mp h with rfl
        exact ⟨fun htt => absurd htt (by simpa using hfree), fun _ => ⟨rfl, hidx⟩⟩

/-- Helper: the atomic reduction fold keeps every entry sound. -/
theorem reduceAtomic_inv (numIon : ℤ) (used : List ℕ) :
    ∀ (l0 acc : List Entry),
      (∀ e ∈ acc, AtomEntryOK numIon used e) →
      (∀ e ∈ l0, e.maxn = Int.fdiv numIon e.mult) →
      ∀ e ∈ List.foldl (reduceStepAtomic numIon used) acc l0,
        AtomEntryOK numIon used e := by
  intro l0
  induction l0 with
  | nil => intro acc hacc _ e he; exact hacc e (by simpa using he)
  | cons x xs ih =>
    intro acc hacc hq e he
    rw [List.foldl_cons] at he
    exact ih _
      (reduceStepAtomic_inv numIon used acc x hacc (hq x (List.mem_cons_self x xs)))
      (fun e2 h2 => hq e2 (List.mem_cons_of_mem x h2)) e he

/-- Helper: the molecular reduction fold keeps every entry sound. -/
theorem reduceMol_inv (numIon : ℤ) (used : List ℕ) :
    ∀ (l0 acc : List Entry),
      (∀ e ∈ acc, MolEntryOK numIon used e) →
      (∀ e ∈ l0, e.maxn = Int.fdiv numIon e.mult) →
      ∀ e ∈ List.foldl (reduceStepMol used) acc l0,
        MolEntryOK numIon used e := by
  intro l0
  induction l0 with
  | nil => intro acc hacc _ e he; exact hacc e (by simpa using he)
  | cons x xs ih =>
    intro acc hacc hq e he
    rw [List.foldl_cons] at he
    exact ih _
      (reduceStepMol_inv numIon used acc x hacc (hq x (List.mem_cons_self x xs)))
      (fun e2 h2 => hq e2 (List.mem_cons_of_mem x h2)) e he

/-- Pointwise cap bound on multiplier vectors: every position of n is at
most the corresponding position of the cap list (positions beyond either
list read as 0). -/
def capLE (n lx : List ℤ) : Prop :=
  ∀ i, n.getD i 0 ≤ lx.getD i 0

/-- Helper: writing a value below its cap preserves the cap bound. -/
theorem capLE_set {n lx : List ℤ} (h : capLE n lx) {j : ℕ} {a : ℤ}
    (ha : a ≤ lx.getD j 0) : capLE (n.set j a) lx := by
  intro i
  rw [List.getD_eq_getElem?_getD, List.getElem?_set]
  rcases eq_or_ne j i with rfl | hne
  · rw [if_pos rfl]
    by_cases hb : j < n.length
    · rw [if_pos hb]
      simpa using ha
    · rw [if_neg hb]
      have h2 := h j
      rw [List.getD_eq_getElem?_getD,
        List.getElem?_eq_none (Nat.not_lt.mp hb)] at h2
      simpa using h2
  · rw [if_neg hne]
    have h2 := h i
    rw [List.getD_eq_getElem?_getD] at h2
    exact h2

/-- Helper: the backwards loop of the sweep preserves the cap bound. -/
theorem backloop_cap (lx : List ℤ) :
    ∀ (q : ℕ) (n : List ℤ) (p2 : ℕ), capLE n lx →
      capLE (backloop n q p2).1 lx := by
  intro q
  induction q with
  | zero => intro n p2 h; exact h
  | succ qq ih =>
    intro n p2 h
    rw [backloop]
    split
    · simp only []
      split
      · refine capLE_set h (le_trans ?_ (h qq))
        omega
      · exact ih _ _ h
    · exact h

/-- Helper: with nonnegative caps, every successful sweep returns a
multiplier vector that honors the caps positionwise. -/
theorem sweep_cap (lm lx : List ℤ) (numIon : ℤ)
    (hnn : ∀ i, (0 : ℤ) ≤ lx.getD i 0) :
    ∀ fuel n p p2 nf,
      capLE n lx →
      sweep lm lx numIon fuel n p p2 = some (some nf) →
      capLE nf lx := by
  intro fuel
  induction fuel with
  | zero => intro n p p2 nf _ h; cases h
  | succ f ih =>
    intro n p p2 nf hcap h
    rw [sweep] at h
    repeat' (first | split at h | simp only [] at h)
    any_goals (cases h; try exact hcap)
    any_goals exact ih _ _ _ _ hcap h
    any_goals exact ih _ _ _ _ (capLE_set hcap (min_le_right _ _)) h
    any_goals exact ih _ _ _ _ (backloop_cap lx _ _ _ (capLE_set hcap (hnn _))) h
    all_goals
      exact ih _ _ _ _ (backloop_cap lx _ _ _ (capLE_set (capLE_set hcap (min_le_right _ _)) (hnn _))) h

/-! Claim C1. -/

/-- Claim C1, counterexample: the molecular entry point performs no
count validation at all.  With the request numMols = [0] (a non-positive
count) and a group with one free orbit of multiplicity 1,
molecular_crystal init_common runs the compatibility analyzer and
raises CompatibilityError rather than stopping with the input-validation
error the claim promises before any compatibility check. -/
theorem C1_counterexample :
    molecularInit [0] none [⟨1, true⟩] [[true]] 100 = InitResult.compatError ∧
      InitResult.compatError ≠ InitResult.countError := by
  exact ⟨rfl, by decide⟩

/-- Claim C1, amended: only the atomic random_crystal entry point
validates requested counts; a non-positive or non-integer count makes it
stop with the input-validation outcome before the compatibility check
runs (the result is countError for every fuel, including fuel 0, under
which the embedded compatibility analyzer could not even report).  The
molecular molecular_crystal entry point performs no count validation:
no input whatsoever produces the countError outcome there. -/
theorem C1_theorem :
    (∀ (numIons : List ℚ) sites g fuel,
      (∃ q ∈ numIons, q ≤ 0 ∨ q.den ≠ 1) →
      atomicInit numIons sites g fuel = InitResult.countError) ∧
    (∀ numMols sites g oris fuel,
      molecularInit numMols sites g oris fuel ≠ InitResult.countError) := by
  constructor
  · intro numIons sites g fuel ⟨q, hq, hbad⟩
    have hfail : countCheckFails numIons = true := by
      unfold countCheckFails
      rw [List.any_eq_true]
      refine ⟨q, hq, ?_⟩
      rcases hbad with h | h
      · have : q < 1 := lt_of_le_of_lt h one_pos
        simp [this]
      · simp [h]
    unfold atomicInit
    rw [if_pos hfail]
  · intro numMols sites g oris fuel
    unfold molecularInit
    split
    · simp
    · split <;> simp

/-- Claim C1, witness for the amended theorem at the concrete bad count
numIons = [0]. -/
theorem C1_witness :
    atomicInit [0] none [⟨1, true⟩] 0 = InitResult.countError :=
  C1_theorem.1 [0] none [⟨1, true⟩] 0 ⟨0, by decide, Or.inl le_rfl⟩

/-! Claim C2. -/

/-- Claim C2: for every entity type supplied with a pre-assigned
orbit-label list, a mismatch between the encoded total and the requested
count makes init_common stop with the consistency ValueError, for every
fuel (in particular fuel 0, under which no search or compatibility
analysis could have run, showing the check is eager); when every
supplied list matches, the consistency error is never raised and
initialization proceeds to the compatibility stage.  Both the atomic and
the molecular pipelines behave this way. -/
theorem C2_theorem :
    (∀ (numIons : List ℚ) sites g fuel,
      countCheckFails numIons = false →
      ((∃ p ∈ (numIons.map Rat.num).zip sites, ∃ lab,
          p.2 = some lab ∧ consistencySum lab ≠ p.1) →
        atomicInit numIons (some sites) g fuel = InitResult.consistencyError) ∧
      ((∀ p ∈ (numIons.map Rat.num).zip sites, ∀ lab,
          p.2 = some lab → consistencySum lab = p.1) →
        atomicInit numIons (some sites) g fuel ≠ InitResult.consistencyError)) ∧
    (∀ (numMols : List ℤ) sites g oris fuel,
      ((∃ p ∈ numMols.zip sites, ∃ lab,
          p.2 = some lab ∧ consistencySum lab ≠ p.1) →
        molecularInit numMols (some sites) g oris fuel = InitResult.consistencyError) ∧
      ((∀ p ∈ numMols.zip sites, ∀ lab,
          p.2 = some lab → consistencySum lab = p.1) →
        molecularInit numMols (some sites) g oris fuel ≠ InitResult.consistencyError)) := by
  constructor
  · intro numIons sites g fuel hcnt
    constructor
    · intro hex
      unfold atomicInit
      rw [if_neg (by simp [hcnt])]
      rw [if_pos ((setSitesFails_iff _ _).mpr hex)]
    · intro hall
      unfold atomicInit
      rw [if_neg (by simp [hcnt])]
      have hok : setSitesFails (numIons.map Rat.num) (some sites) = false := by
        rcases hfail : setSitesFails (numIons.map Rat.num) (some sites) with _ | _
        · rfl
        · obtain ⟨p, hp, lab, hlab, hne⟩ := (setSitesFails_iff _ _).mp hfail
          exact absurd (hall p hp lab hlab) hne
      rw [if_neg (by simp [hok])]
      split <;> simp
  · intro numMols sites g oris fuel
    constructor
    · intro hex
      unfold molecularInit
      rw [if_pos ((setSitesFails_iff _ _).mpr hex)]
    · intro hall
      unfold molecularInit
      have hok : setSitesFails numMols (some sites) = false := by
        rcases hfail : setSitesFails numMols (some sites) with _ | _
        · rfl
        · obtain ⟨p, hp, lab, hlab, hne⟩ := (setSitesFails_iff _ _).mp hfail
          exact absurd (hall p hp lab hlab) hne
      rw [if_neg (by simp [hok])]
      split <;> simp

/-- Claim C2, witness: a pre-assigned list encoding 4 atoms against a
requested count of 2 stops the atomic pipeline with the consistency
error even at fuel 0. -/
theorem C2_witness :
    atomicInit [2] (some [some [⟨4, 'a'⟩]]) [⟨1, true⟩] 0 =
      InitResult.consistencyError :=
  ((C2_theorem.1 [2] [some [⟨4, 'a'⟩]] [⟨1, true⟩] 0 (by decide)).1
    ⟨(2, some [⟨4, 'a'⟩]), by decide, [⟨4, 'a'⟩], rfl, by decide⟩)

/-! Claim C3. -/

/-- Claim C3: a successful per-type placement search returns a list of
site assignments whose orbit multiplicities sum exactly to the requested
count, and exhausting the orbit-attempt budget yields the failure result
None, never a partial list, in both the atomic and the molecular
searches. -/
theorem C3_theorem :
    (∀ d2 numIon merge chk sp wyks trials c fuel sl l,
      setIonWyckoffs d2 numIon merge chk sp wyks trials c fuel sl 0 [] = some l →
      sumMultA l = numIon) ∧
    (∀ d2 numIon merge chk sp wyks trials c sl added tmp,
      setIonWyckoffs d2 numIon merge chk sp wyks trials c 0 sl added tmp = none) ∧
    (∀ d2 numMol merge chk molWyks trials c fuel sl l,
      setMolWyckoffs d2 numMol merge chk molWyks trials c fuel sl 0 [] = some l →
      sumMultM l = numMol) ∧
    (∀ d2 numMol merge chk molWyks trials c sl added tmp,
      setMolWyckoffs d2 numMol merge chk molWyks trials c 0 sl added tmp = none) := by
  refine ⟨?_, ?_, ?_, ?_⟩
  · intro d2 numIon merge chk sp wyks trials c fuel sl l h
    exact setIonWyckoffs_sum_inv d2 numIon merge chk sp wyks trials fuel c sl 0 [] l rfl h
  · intro d2 numIon merge chk sp wyks trials c sl added tmp
    rfl
  · intro d2 numMol merge chk molWyks trials c fuel sl l h
    exact setMolWyckoffs_sum_inv d2 numMol merge chk molWyks trials fuel c sl 0 [] l rfl h
  · intro d2 numMol merge chk molWyks trials c sl added tmp
    rfl

/-- Concrete merge oracle for witnesses: WP_merge returns the sampled
point and the chosen orbit unchanged (no merge happened). -/
def mergeKeep : Pt → WP → Pt × Option WP := fun p w => (p, some w)

/-- Concrete merge oracle for witnesses: WP_merge always merges down to
an orbit of multiplicity 1 with the same freedom flag. -/
def mergeHalf : Pt → WP → Pt × Option WP := fun p w => (p, some ⟨1, w.free⟩)

/-- Concrete distance oracle for witnesses: every atomic pair passes. -/
def chkA : ASite → ASite → Bool := fun _ _ => true

/-- Concrete distance oracle for witnesses: every molecular pair passes. -/
def chkM : MSite → MSite → Bool := fun _ _ => true

/-- Concrete trial stream for witnesses: every cycle draws the orbit of
multiplicity 2 without freedom and the origin as the random point. -/
def trialsA : ℕ → ATrial := fun _ => ⟨some ⟨2, false⟩, ⟨0, 0, 0⟩⟩

/-- Concrete molecular trial stream for witnesses: every cycle draws the
orbit of multiplicity 2, the origin, and an accepted orientation angle 0. -/
def trialsM : ℕ → MTrial := fun _ => ⟨some ⟨2, false⟩, ⟨0, 0, 0⟩, some 0⟩

/-- Claim C3, witness: a concrete one-cycle success placing 2 atoms on a
multiplicity-2 orbit sums to the requested count 2. -/
theorem C3_witness : sumMultA [⟨⟨2, false⟩, ⟨0, 0, 0⟩, 7⟩] = 2 :=
  C3_theorem.1 false 2 mergeKeep chkA 7 [] trialsA 0 1 none
    [⟨⟨2, false⟩, ⟨0, 0, 0⟩, 7⟩] rfl

/-! Claim C7. -/

/-- Claim C7: during a placement trial with a pre-assigned label, a
merge that changes the orbit multiplicity makes the trial a plain retry:
the search state (pending labels, accumulated sites, running count) is
passed unchanged to the next cycle, so the label is not consumed; and on
an accepted candidate the pending list loses exactly its head, the
acceptance being the only branch that shrinks it.  Both searches. -/
theorem C7_theorem :
    (∀ d2 numIon merge chk sp wyks trials c fuel lab ls added tmp w pt1 w2,
      (trials c).wpc = some w →
      merge (trials c).pt w = (pt1, some w2) →
      w.mult ≠ w2.mult →
      setIonWyckoffs d2 numIon merge chk sp wyks trials c (fuel + 1)
          (some (lab :: ls)) added tmp =
        setIonWyckoffs d2 numIon merge chk sp wyks trials (c + 1) fuel
          (some (lab :: ls)) added tmp) ∧
    (∀ d2 numIon merge chk sp wyks trials c fuel lab ls added tmp w pt1 w2,
      (trials c).wpc = some w →
      merge (trials c).pt w = (pt1, some w2) →
      w.mult = w2.mult →
      ((tmp ++ wyks).all (fun ws =>
        chk ⟨w2, if d2 then { pt1 with z := 1 / 2 } else pt1, sp⟩ ws)) = true →
      setIonWyckoffs d2 numIon merge chk sp wyks trials c (fuel + 1)
          (some (lab :: ls)) added tmp =
        (if added + w2.mult = numIon
         then some (tmp ++ [⟨w2, if d2 then { pt1 with z := 1 / 2 } else pt1, sp⟩])
         else setIonWyckoffs d2 numIon merge chk sp wyks trials (c + 1) fuel
           (some ls) (added + w2.mult)
           (tmp ++ [⟨w2, if d2 then { pt1 with z := 1 / 2 } else pt1, sp⟩]))) ∧
    (∀ d2 numMol merge chk molWyks trials c fuel lab ls added tmp w pt1 w2,
      (trials c).wpc = some w →
      merge (trials c).pt w = (pt1, some w2) →
      w.mult ≠ w2.mult →
      setMolWyckoffs d2 numMol merge chk molWyks trials c (fuel + 1)
          (some (lab :: ls)) added tmp =
        setMolWyckoffs d2 numMol merge chk molWyks trials (c + 1) fuel
          (some (lab :: ls)) added tmp) ∧
    (∀ d2 numMol merge chk molWyks trials c fuel lab ls added tmp w pt1 w2 ang,
      (trials c).wpc = some w →
      merge (trials c).pt w = (pt1, some w2) →
      w.mult = w2.mult →
      (trials c).ori = some ang →
      ((tmp ++ molWyks).all (fun ws =>
        chk ⟨w2, if d2 then { pt1 with z := 1 / 2 } else pt1, ang⟩ ws)) = true →
      setMolWyckoffs d2 numMol merge chk molWyks trials c (fuel + 1)
          (some (lab :: ls)) added tmp =
        (if added + w2.mult = numMol
         then some (tmp ++ [⟨w2, if d2 then { pt1 with z := 1 / 2 } else pt1, ang⟩])
         else setMolWyckoffs d2 numMol merge chk molWyks trials (c + 1) fuel
           (some ls) (added + w2.mult)
           (tmp ++ [⟨w2, if d2 then { pt1 with z := 1 / 2 } else pt1, ang⟩]))) := by
  refine ⟨?_, ?_, ?_, ?_⟩
  · intro d2 numIon merge chk sp wyks trials c fuel lab ls added tmp w pt1 w2 hw hm hne
    rw [setIonWyckoffs]
    simp only [hw, hm]
    rw [if_pos ⟨rfl, hne⟩]
  · intro d2 numIon merge chk sp wyks trials c fuel lab ls added tmp w pt1 w2 hw hm heq hall
    rw [setIonWyckoffs]
    simp only [hw, hm]
    rw [if_neg (by simp [heq])]
    rw [if_pos hall]
    simp only [Option.map_some', List.tail_cons]
  · intro d2 numMol merge chk molWyks trials c fuel lab ls added tmp w pt1 w2 hw hm hne
    rw [setMolWyckoffs]
    simp only [hw, hm]
    rw [if_pos ⟨rfl, hne⟩]
  · intro d2 numMol merge chk molWyks trials c fuel lab ls added tmp w pt1 w2 ang
      hw hm heq hori hall
    rw [setMolWyckoffs]
    simp only [hw, hm, hori]
    rw [if_neg (by simp [heq])]
    rw [if_pos hall]
    simp only [Option.map_some', List.tail_cons]

/-- Claim C7, witness: with a pre-assigned label 2a and a merge oracle
that halves the multiplicity, the cycle rewrites to the next cycle with
the label list untouched. -/
theorem C7_witness :
    setIonWyckoffs false 5 mergeHalf chkA 0 [] trialsA 0 1
        (some [⟨2, 'a'⟩]) 0 [] =
      setIonWyckoffs false 5 mergeHalf chkA 0 [] trialsA 1 0
        (some [⟨2, 'a'⟩]) 0 [] :=
  C7_theorem.1 false 5 mergeHalf chkA 0 [] trialsA 0 0 ⟨2, 'a'⟩ [] 0 []
    ⟨2, false⟩ ⟨0, 0, 0⟩ ⟨1, false⟩ rfl rfl (by decide)

/-! Claim C10. -/

/-- Claim C10: in a 2D run whose thickness is set and below 0.1, every
site accepted by either placement search carries the snapped third
fractional coordinate 1/2. -/
theorem C10_theorem :
    (∀ (th : Option ℚ) (t : ℚ) numIon merge chk sp wyks trials c fuel sl l,
      th = some t → t < 1 / 10 →
      setIonWyckoffs (planarCond 2 th) numIon merge chk sp wyks trials c fuel sl 0 [] =
        some l →
      ∀ s ∈ l, s.pt.z = 1 / 2) ∧
    (∀ (th : Option ℚ) (t : ℚ) numMol merge chk molWyks trials c fuel sl l,
      th = some t → t < 1 / 10 →
      setMolWyckoffs (planarCond 2 th) numMol merge chk molWyks trials c fuel sl 0 [] =
        some l →
      ∀ s ∈ l, s.pt.z = 1 / 2) := by
  constructor
  · intro th t numIon merge chk sp wyks trials c fuel sl l hth ht h
    subst hth
    have hpc : planarCond 2 (some t) = true := by
      show ((2 == 2) && decide (t < 1 / 10)) = true
      rw [decide_eq_true ht]
      rfl
    rw [hpc] at h
    exact setIonWyckoffs_planar_inv numIon merge chk sp wyks trials fuel c sl 0 [] l
      (fun s hs => absurd hs (List.not_mem_nil s)) h
  · intro th t numMol merge chk molWyks trials c fuel sl l hth ht h
    subst hth
    have hpc : planarCond 2 (some t) = true := by
      show ((2 == 2) && decide (t < 1 / 10)) = true
      rw [decide_eq_true ht]
      rfl
    rw [hpc] at h
    exact setMolWyckoffs_planar_inv numMol merge chk molWyks trials fuel c sl 0 [] l
      (fun s hs => absurd hs (List.not_mem_nil s)) h

/-- Claim C10, witness: a concrete 2D molecular run with thickness 1/20
produces a site whose third coordinate is 1/2. -/
theorem C10_witness :
    (⟨⟨2, false⟩, ⟨0, 0, 1 / 2⟩, 0⟩ : MSite).pt.z = 1 / 2 :=
  C10_theorem.2 (some (1 / 20)) (1 / 20) 2 mergeKeep chkM [] trialsM 0 5 none
    [⟨⟨2, false⟩, ⟨0, 0, 1 / 2⟩, 0⟩] rfl (by norm_num)
    (by
      rw [show planarCond 2 (some ((1 : ℚ) / 20)) = true by
        show ((2 == 2) && decide ((1 : ℚ) / 20 < 1 / 10)) = true
        rw [decide_eq_true (by norm_num : (1 : ℚ) / 20 < 1 / 10)]
        rfl]
      rfl)
    ⟨⟨2, false⟩, ⟨0, 0, 1 / 2⟩, 0⟩ (List.mem_singleton.mpr rfl)

/-! Claim C4. -/

/-- Claim C4, counterexample: the molecular inner coordinate-trial
budget is 30 when the composition has geometric freedom, not at most 10
as claimed; a run whose first success comes at inner trial index 29
really performs 30 coordinate trials inside one lattice trial. -/
theorem C4_counterexample :
    (molecularBudgets true true).2.1 = 30 ∧
      setCrystalLoop (fun _ c2 => c2 == 29) (molecularBudgets true true).1
        (molecularBudgets true true).2.1 = some (0, 29) ∧
      ¬ (29 : ℕ) < 10 := by
  refine ⟨rfl, by decide, by decide⟩

/-- Claim C4, amended: the outer lattice-trial loop is bounded by 40
attempts when the composition has geometric freedom and by 5 (atomic) or
20 (molecular) otherwise, and is forced to 1 when the supplied lattice
does not permit resampling; the inner coordinate-trial loop is bounded
by 10 (atomic) or 30 (molecular) attempts when free and by 5 (atomic) or
3 (molecular) otherwise; and the assembly loop never reports a success
outside those bounds. -/
theorem C4_theorem :
    atomicBudgets true true = (40, 10) ∧
    atomicBudgets false true = (5, 5) ∧
    molecularBudgets true true = (40, 30, 5) ∧
    molecularBudgets false true = (20, 3, 1) ∧
    (∀ d, (atomicBudgets d false).1 = 1 ∧ (molecularBudgets d false).1 = 1) ∧
    (∀ tryOnce la ca c1 c2,
      setCrystalLoop tryOnce la ca = some (c1, c2) → c1 < la ∧ c2 < ca) := by
  refine ⟨rfl, rfl, rfl, rfl, fun d => ⟨rfl, rfl⟩, ?_⟩
  intro tryOnce la ca c1 c2 h
  exact setCrystalLoop_lt h

/-- Claim C4, witness: the loop-bound part of the amended theorem at a
concrete immediate success under the free molecular budgets. -/
theorem C4_witness :
    (0 : ℕ) < (molecularBudgets true true).1 ∧
      (0 : ℕ) < (molecularBudgets true true).2.1 :=
  C4_theorem.2.2.2.2.2 (fun _ _ => true) (molecularBudgets true true).1
    (molecularBudgets true true).2.1 0 0 rfl

/-! Claim C5. -/

/-- Claim C5, counterexample: in the molecular analyzer a usable orbit
without freedom whose multiplicity (2) exceeds the requested count (1)
still gets the cap 1, not the cap 0 the claim asserts, so it can
contribute. -/
theorem C5_counterexample :
    (buildListsMol [⟨2, false⟩] [true] 1 []).map Entry.maxn = [1] ∧
      ¬ ((2 : ℤ) ≤ 1) ∧ (1 : ℤ) ≠ 0 := by
  exact ⟨rfl, by norm_num, by norm_num⟩

/-- Claim C5, amended: in the atomic analyzer the caps are as claimed
(requested_count // multiplicity for free orbits, 1 for usable non-free
orbits with multiplicity at most the requested count, 0 otherwise); in
the molecular analyzer free orbits are capped the same way but every
usable non-free orbit is capped at 1 regardless of its multiplicity.
In both, a successful bounded combinatorial sweep over nonnegative caps
returns multipliers that honor the caps positionwise. -/
theorem C5_theorem :
    (∀ g numIon used e, e ∈ buildListsAtomic g numIon used →
      (e.free = true → e.maxn = Int.fdiv numIon e.mult) ∧
      (e.free = false → e.maxn = if e.mult ≤ numIon then 1 else 0)) ∧
    (∀ g ori numIon used e, e ∈ buildListsMol g ori numIon used →
      (e.free = true → e.maxn = Int.fdiv numIon e.mult) ∧
      (e.free = false → e.maxn = 1)) ∧
    (∀ lm lx numIon fuel n p p2 nf,
      (∀ i, (0 : ℤ) ≤ lx.getD i 0) → capLE n lx →
      sweep lm lx numIon fuel n p p2 = some (some nf) →
      capLE nf lx) := by
  refine ⟨?_, ?_, ?_⟩
  · intro g numIon used e he
    unfold buildListsAtomic reduceAtomic at he
    have hok := reduceAtomic_inv numIon used (wpLists0 g numIon) []
      (fun e2 h2 => absurd h2 (List.not_mem_nil e2)) (wpLists0_maxn g numIon) e he
    exact ⟨hok.1, fun hf => (hok.2 hf).1⟩
  · intro g ori numIon used e he
    unfold buildListsMol reduceMol at he
    have hok := reduceMol_inv numIon used (wpLists0Mol g ori numIon) []
      (fun e2 h2 => absurd h2 (List.not_mem_nil e2)) (wpLists0Mol_maxn g ori numIon) e he
    exact ⟨hok.1, fun hf => (hok.2 hf).1⟩
  · intro lm lx numIon fuel n p p2 nf hnn hcap h
    exact sweep_cap lm lx numIon hnn fuel n p p2 nf hcap h

/-- Claim C5, witness: a concrete two-orbit sweep (multiplicities 1 and
2, caps 5 and 3, request 4) succeeds with the multipliers [2, 1], which
honor the caps. -/
theorem C5_witness : capLE [2, 1] [5, 3] :=
  C5_theorem.2.2 [1, 2] [5, 3] 4 2 [2, 0] 0 0 [2, 1]
    (fun i => by
      match i with
      | 0 => norm_num
      | 1 => norm_num
      | (j + 2) => simp [List.getD])
    (fun i => by
      match i with
      | 0 => norm_num
      | 1 => norm_num
      | (j + 2) => simp [List.getD])
    rfl

/-! Claim C6. -/

/-- Claim C6, counterexample: the molecular analyzer never populates the
used-orbit set.  With a group holding a single non-free orbit of
multiplicity 2 and two molecule types requesting 2 each, the molecular
analyzer reports both types feasible by reusing that orbit (the atomic
analyzer on the same input reports infeasibility, since the orbit is
consumed by the first species), and the per-type step returns the used
set empty even though the non-free orbit received multiplier 1. -/
theorem C6_counterexample :
    checkCompatibleMol [⟨2, false⟩] [2, 2] [[true], [true]] 100 =
        some (true, false) ∧
      checkCompatibleAtomic [⟨2, false⟩] [2, 2] 100 = some (false, false) ∧
      speciesStepMol [⟨2, false⟩] [true] 2 [] 100 = some (some (false, [])) := by
  exact ⟨rfl, rfl, rfl⟩

/-- Claim C6, amended: in the atomic analyzer every non-free orbit with
a nonzero multiplier in a successful combination has its index appended
to the used set, and the candidate list built for any entity type never
contains a non-free orbit whose index is in that set; in the molecular
analyzer the used set threaded across molecule types comes back
unchanged from every per-type step (the source appends the indices to a
per-type local list instead), so no cross-type exclusion takes place. -/
theorem C6_theorem :
    (∀ n es used ve, ve ∈ n.zip es → 0 < ve.1 → ve.2.free = false →
      ve.2.idx ∈ (recordComb n es used).2) ∧
    (∀ g numIon used e, e ∈ buildListsAtomic g numIon used → e.free = false →
      e.idx ∉ used) ∧
    (∀ g ori numIon used fuel r,
      speciesStepMol g ori numIon used fuel = some (some r) → r.2 = used) := by
  refine ⟨?_, ?_, ?_⟩
  · intro n es used ve hmem hpos hfree
    unfold recordComb
    refine List.mem_append_right used ?_
    refine List.mem_map.mpr ⟨ve, List.mem_filter.mpr ⟨hmem, ?_⟩, rfl⟩
    simp [hpos, hfree]
  · intro g numIon used e he hfree
    unfold buildListsAtomic reduceAtomic at he
    have hok := reduceAtomic_inv numIon used (wpLists0 g numIon) []
      (fun e2 h2 => absurd h2 (List.not_mem_nil e2)) (wpLists0_maxn g numIon) e he
    exact (hok.2 hfree).2
  · intro g ori numIon used fuel r h
    unfold speciesStepMol at h
    repeat' (first | split at h | simp only [] at h)
    all_goals (cases h; try rfl)

/-- Claim C6, witness: the atomic recording part at a concrete
combination, where the nonzero non-free orbit with index 5 lands in the
used set. -/
theorem C6_witness :
    (5 : ℕ) ∈ (recordComb [1] [⟨2, 3, false, 5⟩] []).2 :=
  C6_theorem.1 [1] [⟨2, 3, false, 5⟩] [] (1, ⟨2, 3, false, 5⟩)
    (by decide) (by decide) rfl

/-! Claim C8. -/

/-- Claim C8: the orientation refiner accepts immediately when the
initial distance check passes; without more than one atom or rotational
freedom a failed initial check is final (None); otherwise it evaluates
the objective at both ends of the bracket angle0 and angle0 + pi and
runs the bisection loop with budget ori_attempts.  The loop returns
None when the budget hits zero; any site it returns was accepted in an
iteration whose objective value exceeds 0.8 with the full distance
check passing; and a non-accepting iteration evaluates the objective at
the bracket midpoint and replaces the bracket end holding the smaller
objective value by the midpoint. -/
theorem C8_theorem :
    (∀ d chk s, bisLoop d chk 0 s = none) ∧
    (∀ d chk k s a, s.fc = d s.cur → bisLoop d chk k s = some a →
      d a > 4 / 5 ∧ chk a = true) ∧
    (∀ d chk k s, ¬(s.fc > 4 / 5 ∧ chk s.cur = true) →
      bisLoop d chk (k + 1) s =
        bisLoop d chk k
          (if s.flo > s.fhi then
            ⟨s.lo, (s.lo + s.hi) / 2, s.flo, d ((s.lo + s.hi) / 2),
              d ((s.lo + s.hi) / 2), (s.lo + s.hi) / 2⟩
          else
            ⟨(s.lo + s.hi) / 2, s.hi, d ((s.lo + s.hi) / 2), s.fhi,
              d ((s.lo + s.hi) / 2), (s.lo + s.hi) / 2⟩)) ∧
    (∀ natoms oriDegrees oriAttempts halfTurn angle0 d chk,
      chk angle0 = true →
      setOrientation natoms oriDegrees oriAttempts halfTurn angle0 d chk =
        some angle0) ∧
    (∀ natoms oriDegrees oriAttempts halfTurn angle0 d chk,
      chk angle0 = false → ¬(1 < natoms ∧ 0 < oriDegrees) →
      setOrientation natoms oriDegrees oriAttempts halfTurn angle0 d chk = none) ∧
    (∀ natoms oriDegrees oriAttempts halfTurn angle0 d chk,
      chk angle0 = false → 1 < natoms → 0 < oriDegrees →
      setOrientation natoms oriDegrees oriAttempts halfTurn angle0 d chk =
        bisLoop d chk oriAttempts
          ⟨angle0, angle0 + halfTurn, d angle0, d (angle0 + halfTurn),
            d (angle0 + halfTurn), angle0 + halfTurn⟩) := by
  refine ⟨fun d chk s => rfl, ?_, ?_, ?_, ?_, ?_⟩
  · intro d chk k
    induction k with
    | zero => intro s a _ h; cases h
    | succ kk ih =>
      intro s a hfc h
      rw [bisLoop] at h
      split at h
      · rename_i hcond
        cases h
        rw [Bool.and_eq_true, decide_eq_true_eq] at hcond
        exact ⟨hfc ▸ hcond.1, hcond.2⟩
      · split at h
        · exact ih _ _ rfl h
        · exact ih _ _ rfl h
  · intro d chk k s hcond
    rw [bisLoop]
    rw [if_neg (by simpa [Bool.and_eq_true, decide_eq_true_eq] using hcond)]
    by_cases hf : s.flo > s.fhi
    · simp only [hf, if_pos]
    · simp only [hf, if_neg, ite_false]
  · intro natoms oriDegrees oriAttempts halfTurn angle0 d chk hchk
    unfold setOrientation
    simp [hchk]
  · intro natoms oriDegrees oriAttempts halfTurn angle0 d chk hchk hnot
    unfold setOrientation
    simp [hchk, hnot]
  · intro natoms oriDegrees oriAttempts halfTurn angle0 d chk hchk h1 h2
    unfold setOrientation
    simp [hchk, h1, h2]

/-- Claim C8, witness: the soundness part at a concrete accepting run
(constant objective 1, always-passing distance check, budget 1). -/
theorem C8_witness :
    (fun _ : ℚ => (1 : ℚ)) 3 > 4 / 5 ∧ (fun _ : ℚ => true) 3 = true :=
  C8_theorem.2.1 (fun _ => 1) (fun _ => true) 1 ⟨0, 3, 1, 1, 1, 3⟩ 3 rfl
    (by
      rw [bisLoop]
      rw [if_pos (by
        rw [Bool.and_eq_true, decide_eq_true_eq]
        exact ⟨by norm_num, rfl⟩)])

/-! Claim C9. -/

/-- Claim C9: supplying an external lattice overwrites the crystal's
estimated volume with the lattice's volume, rewrites the shared lattice
object's PBC to the crystal's PBC (in particular whenever they differ
the caller's object is the one changed, nothing else of it moving), and
leaves every other crystal field untouched. -/
theorem C9_theorem : ∀ (c : CrystalState) (lat : LatticeData),
    (setLatticeSupplied c lat).1.volume = lat.volume ∧
    (setLatticeSupplied c lat).2.pbc = c.pbc ∧
    (lat.pbc ≠ c.pbc →
      (setLatticeSupplied c lat).2 = { lat with pbc := c.pbc }) ∧
    (setLatticeSupplied c lat).2.volume = lat.volume ∧
    (setLatticeSupplied c lat).2.allowReset = lat.allowReset ∧
    (setLatticeSupplied c lat).1.pbc = c.pbc ∧
    (setLatticeSupplied c lat).1.factor = c.factor ∧
    (setLatticeSupplied c lat).1.degrees = c.degrees ∧
    (setLatticeSupplied c lat).1.valid = c.valid := by
  intro c lat
  unfold setLatticeSupplied
  by_cases h : lat.pbc = c.pbc <;> simp [h]

/-- Claim C9, witness: the PBC-overwrite part at a concrete crystal and
lattice whose PBC triples differ. -/
theorem C9_witness :
    (setLatticeSupplied ⟨[1, 1, 1], 100, 1, true, false⟩
        ⟨55, [1, 1, 0], true⟩).2 =
      { volume := 55, pbc := [1, 1, 1], allowReset := true } :=
  (C9_theorem ⟨[1, 1, 1], 100, 1, true, false⟩ ⟨55, [1, 1, 0], true⟩).2.2.1
    (by decide)

end PyXtal
